import Mathlib

/-!
Shallow embedding of the gem5 DTU command-execution and request-lifecycle
engine, translated from `src/mem/dtu/dtu.cc`.  Machine integers (`Addr`,
`RegFile::reg_t`, both 64-bit unsigned) are modelled as `Nat` with explicit
wrap-around (`% 2 ^ 64`) where the C++ arithmetic can overflow.  External
collaborators (the event scheduler's `clockEdge`/`ticksToCycles`, the register
file's `handleRequest`, the sub-units reached only through virtual calls) are
kept abstract: they appear as function parameters or as emitted actions, never
as stubs pretending to be the code under test.
-/

namespace Dtu

/-- 64-bit modulus for `Addr` / `RegFile::reg_t` arithmetic. -/
def wordMod : Nat := 2 ^ 64

/-- Wrapping 64-bit addition, the C++ `uint64_t` `+`. -/
def add64 (a b : Nat) : Nat := (a + b) % wordMod

/-- Wrapping 64-bit subtraction, the C++ `uint64_t` `-`. -/
def sub64 (a b : Nat) : Nat := (a + (wordMod - b % wordMod)) % wordMod

/-- The gem5 `MemCmd` values `handleCacheMemRequest` distinguishes:
`CleanEvict` and `InvalidateReq` are matched explicitly, every other command
only matters through `isRead`/`isWrite`; `other` stands for a command that is
neither a read nor a write. -/
inductive MemCmd where
  | cleanEvict
  | invalidateReq
  | readReq
  | writeReq
  | other
  deriving Repr, DecidableEq

/-- `Packet::isRead()` for the commands modelled here. -/
def MemCmd.isRead : MemCmd → Bool
  | .readReq => true
  | _ => false

/-- `Packet::isWrite()` for the commands modelled here. -/
def MemCmd.isWrite : MemCmd → Bool
  | .writeReq => true
  | _ => false

/-- `Dtu::NocPacketType`. -/
inductive NocPacketType where
  | message
  | readReq
  | writeReq
  | cacheMemReq
  | cacheMemReqFunc
  deriving Repr, DecidableEq

/-- `Dtu::MemReqType`. -/
inductive MemReqType where
  | transfer
  | header
  deriving Repr, DecidableEq

/-- `Dtu::MemSenderState`: epId, the original master id, and the request
kind, pushed on issue and popped on completion. -/
structure MemSenderState where
  epId : Nat
  mid : Nat
  ty : MemReqType
  deriving Repr, DecidableEq

/-- Modelled from the spec: the access-permission flag bits READ and WRITE of
an endpoint's `REQ_FLAGS` register (the enum lives in `mem/dtu/dtu.hh`, which
is not part of the excerpt; only that READ and WRITE are distinct single bits
is used). -/
def READ : Nat := 1

/-- Modelled from the spec: the WRITE permission flag bit (see `READ`). -/
def WRITE : Nat := 2

/-- A gem5 packet, reduced to the fields `dtu.cc` reads or writes: command,
address, size, master id, the two transport-delay fields, and the
sender-state stacks (`pushSenderState` / `popSenderState`). -/
structure Packet where
  cmd : MemCmd
  addr : Nat
  size : Nat
  masterId : Nat
  headerDelay : Nat
  payloadDelay : Nat
  memSenderStates : List MemSenderState
  nocSenderStates : List NocPacketType
  deriving Repr, DecidableEq

/-- The DTU's configuration parameters and its environment: `clockEdge` and
`ticksToCycles` belong to the out-of-scope event scheduler (`ClockedObject`)
and are kept abstract; `nocOffsetBits`/`nocEpIdBits` are the bit widths of the
spec-modelled NoC-address layout; `hasCore` models
`system->threadContexts.size() != 0`. -/
structure DtuCfg where
  numEndpoints : Nat
  memEp : Nat
  atomicMode : Bool
  masterId : Nat
  regFileBaseAddr : Nat
  registerAccessLatency : Nat
  numCmdOpcodeBits : Nat
  numCmdEpidBits : Nat
  nocOffsetBits : Nat
  nocEpIdBits : Nat
  hasCore : Bool
  clockEdge : Nat → Nat
  ticksToCycles : Nat → Nat

/-- The DTU state the modelled operations touch: the COMMAND register, the
MSG_CNT register, the in-progress flag, the core's `_denySuspend` pin, and
the per-endpoint registers read by the cache-mem path (TGT_COREID,
REQ_REM_ADDR, REQ_REM_SIZE, REQ_FLAGS). -/
structure DtuState where
  command : Nat
  msgCnt : Nat
  cmdInProgress : Bool
  denySuspend : Bool
  epTgtCoreId : Nat → Nat
  epRemAddr : Nat → Nat
  epRemSize : Nat → Nat
  epFlags : Nat → Nat

/-- A decoded command, `Dtu::Command`. -/
structure Command where
  opcode : Nat
  epId : Nat
  deriving Repr, DecidableEq

/-- The `Dtu::CommandOpcode` values, fixed by the order of `cmdNames` in
`dtu.cc`: IDLE, SEND, REPLY, READ, WRITE, INC_READ_PTR, WAKEUP_CORE. -/
def opIDLE : Nat := 0

def opSEND : Nat := 1

def opREPLY : Nat := 2

def opREAD : Nat := 3

def opWRITE : Nat := 4

def opINC_READ_PTR : Nat := 5

def opWAKEUP_CORE : Nat := 6

/-- `Dtu::getCommand`: masks the low `numCmdOpcodeBits` bits as the opcode and
the next `numCmdEpidBits` bits, shifted down, as the epId.  The leading
`assert(numCmdEpidBits + numCmdOpcodeBits <= sizeof(reg_t) * 8)` is modelled
as the `Option` guard (`none` = assertion failure). -/
def getCommand (cfg : DtuCfg) (st : DtuState) : Option Command :=
  if cfg.numCmdEpidBits + cfg.numCmdOpcodeBits ≤ 64 then
    let opcodeMask : Nat := 2 ^ cfg.numCmdOpcodeBits - 1
    let epidMask : Nat := (2 ^ cfg.numCmdEpidBits - 1) <<< cfg.numCmdOpcodeBits
    some { opcode := st.command &&& opcodeMask
           epId := (st.command &&& epidMask) >>> cfg.numCmdOpcodeBits }
  else
    none

/-- `Dtu::finishCommand`: reads the command back (whose own width assertion
must hold), asserts `cmdInProgress`, then clears the COMMAND register and the
in-progress flag together.  `none` = assertion failure. -/
def finishCommand (cfg : DtuCfg) (st : DtuState) : Option DtuState :=
  match getCommand cfg st with
  | none => none
  | some _ =>
    if st.cmdInProgress then
      some { st with command := 0, cmdInProgress := false }
    else
      none

/-- The sub-unit calls `executeCommand` dispatches to; the sub-units
themselves (`msg_unit.cc`, `mem_unit.cc`) are outside the excerpt, so the
dispatch is recorded as an emitted action. -/
inductive DtuAction where
  | startTransmission (c : Command)
  | startRead (c : Command)
  | startWrite (c : Command)
  | incrementReadPtr (epId : Nat)
  | wakeupCore

/-- Outcome of `Dtu::executeCommand`: normal return with the new state and
the dispatched sub-unit calls, an `assert` failure, or the `panic` on an
unknown opcode. -/
inductive ExecResult where
  | ok (st : DtuState) (acts : List DtuAction)
  | assertFail
  | panicked

/-- `Dtu::executeCommand`: IDLE returns at once; otherwise asserts
`!cmdInProgress` and `epId < numEndpoints`, sets the in-progress flag, and
dispatches on the opcode; INC_READ_PTR and WAKEUP_CORE call `finishCommand`
before returning; an unknown opcode panics. -/
def executeCommand (cfg : DtuCfg) (st : DtuState) : ExecResult :=
  match getCommand cfg st with
  | none => .assertFail
  | some cmd =>
    if cmd.opcode = opIDLE then
      .ok st []
    else if st.cmdInProgress then
      .assertFail
    else if cfg.numEndpoints ≤ cmd.epId then
      .assertFail
    else
      let st1 := { st with cmdInProgress := true }
      if cmd.opcode = opSEND ∨ cmd.opcode = opREPLY then
        .ok st1 [.startTransmission cmd]
      else if cmd.opcode = opREAD then
        .ok st1 [.startRead cmd]
      else if cmd.opcode = opWRITE then
        .ok st1 [.startWrite cmd]
      else if cmd.opcode = opINC_READ_PTR then
        match finishCommand cfg st1 with
        | some st2 => .ok st2 [.incrementReadPtr cmd.epId]
        | none => .assertFail
      else if cmd.opcode = opWAKEUP_CORE then
        match finishCommand cfg st1 with
        | some st2 => .ok st2 [.wakeupCore]
        | none => .assertFail
      else
        .panicked

/-- `Dtu::updateSuspendablePin`: with an attached core, recompute
`_denySuspend` as `MSG_CNT > 0`; without thread contexts it returns at
once. -/
def updateSuspendablePin (cfg : DtuCfg) (st : DtuState) : DtuState :=
  if cfg.hasCore then
    { st with denySuspend := decide (0 < st.msgCnt) }
  else
    st

/-- Modelled from the spec: the NoC address `{targetCoreId, endpointId-or-zero,
offset}` (`mem/dtu/noc_addr.hh` is not part of the excerpt).  The offset sits
in the low `nocOffsetBits` bits, the endpoint id in the next `nocEpIdBits`
bits, the core id above them; the packed value is a 64-bit `Addr`. -/
structure NocAddr where
  coreId : Nat
  epId : Nat
  offset : Nat
  deriving Repr, DecidableEq

/-- Modelled from the spec: `NocAddr::getAddr()`, packing the fields (see
`NocAddr`). -/
def NocAddr.getAddr (cfg : DtuCfg) (n : NocAddr) : Nat :=
  ((n.coreId * 2 ^ cfg.nocEpIdBits + n.epId) * 2 ^ cfg.nocOffsetBits + n.offset)
    % wordMod

/-- Modelled from the spec: the `NocAddr(Addr)` decoding constructor,
recovering the fields from a packed 64-bit address (see `NocAddr`). -/
def NocAddr.fromAddr (cfg : DtuCfg) (a : Nat) : NocAddr :=
  { coreId := a / 2 ^ cfg.nocOffsetBits / 2 ^ cfg.nocEpIdBits
    epId := a / 2 ^ cfg.nocOffsetBits % 2 ^ cfg.nocEpIdBits
    offset := a % 2 ^ cfg.nocOffsetBits }

/-- What `Dtu::sendNocRequest` does with the packet after pushing the
sender-state: a functional send, an atomic send, an immediate call of
`completeNocRequest` (both of which happen before the function returns), or a
`schedNocRequest` at a future tick. -/
inductive NocSendEvt where
  | functionalSent (pkt : Packet)
  | atomicSent (pkt : Packet)
  | completedNow (pkt : Packet)
  | scheduled (pkt : Packet) (tick : Nat)
  deriving Repr, DecidableEq

/-- `Dtu::sendNocRequest`: push a `NocSenderState` carrying the packet type;
functional requests are sent functionally and completed at once, atomic-mode
requests are sent atomically and completed at once, timed requests are
scheduled at `clockEdge(delay)`. -/
def sendNocRequest (cfg : DtuCfg) (ty : NocPacketType) (pkt : Packet)
    (delay : Nat) (functional : Bool) : Packet × List NocSendEvt :=
  let pkt1 := { pkt with nocSenderStates := ty :: pkt.nocSenderStates }
  if functional then
    (pkt1, [.functionalSent pkt1, .completedNow pkt1])
  else if cfg.atomicMode then
    (pkt1, [.atomicSent pkt1, .completedNow pkt1])
  else
    (pkt1, [.scheduled pkt1 (cfg.clockEdge delay)])

/-- What `Dtu::sendMemRequest` does with the packet: an atomic send plus an
immediate call of `completeMemRequest` (both before the function returns), or
a `schedMemRequest` at a future tick. -/
inductive MemSendEvt where
  | atomicSent (pkt : Packet)
  | completedNow (pkt : Packet)
  | scheduled (pkt : Packet) (tick : Nat)
  deriving Repr, DecidableEq

/-- `Dtu::sendMemRequest`: push a `MemSenderState` recording epId, the old
master id and the request type, overwrite the master id with the DTU's own,
then either send atomically and complete at once (atomic mode) or schedule at
`clockEdge(delay)`. -/
def sendMemRequest (cfg : DtuCfg) (pkt : Packet) (epId : Nat)
    (ty : MemReqType) (delay : Nat) : Packet × List MemSendEvt :=
  let ss : MemSenderState := { epId := epId, mid := pkt.masterId, ty := ty }
  let pkt1 := { pkt with masterId := cfg.masterId
                         memSenderStates := ss :: pkt.memSenderStates }
  if cfg.atomicMode then
    (pkt1, [.atomicSent pkt1, .completedNow pkt1])
  else
    (pkt1, [.scheduled pkt1 (cfg.clockEdge delay)])

/-- `Dtu::handleCacheMemRequest`: drop `CleanEvict` (handled, no traffic),
refuse `InvalidateReq`; read the reserved memory endpoint's registers; deny on
missing permission, deny on wrap-around (`addr + size <= addr` in `uint64_t`)
or `addr + size > remoteSize`; otherwise rewrite the address into NoC space
via the endpoint's remote base and forward through `sendNocRequest` as a
CACHE_MEM_REQ (functional variant when `functional`).  Returns the handled
flag, the (possibly rewritten) packet, and the NoC-send events. -/
def handleCacheMemRequest (cfg : DtuCfg) (st : DtuState) (pkt : Packet)
    (functional : Bool) : Bool × Packet × List NocSendEvt :=
  if pkt.cmd = .cleanEvict then
    (true, pkt, [])
  else if pkt.cmd = .invalidateReq then
    (false, pkt, [])
  else
    let targetCoreId := st.epTgtCoreId cfg.memEp
    let targetAddr := st.epRemAddr cfg.memEp
    let remoteSize := st.epRemSize cfg.memEp
    let flags := st.epFlags cfg.memEp
    if (pkt.cmd.isWrite && (flags &&& WRITE == 0)) ||
       (pkt.cmd.isRead && (flags &&& READ == 0)) then
      (false, pkt, [])
    else if add64 pkt.addr pkt.size ≤ pkt.addr ∨
            remoteSize < add64 pkt.addr pkt.size then
      (false, pkt, [])
    else
      let pkt1 := { pkt with
        addr := NocAddr.getAddr cfg
          { coreId := targetCoreId, epId := 0
            offset := add64 targetAddr pkt.addr } }
      let ty := if functional then NocPacketType.cacheMemReqFunc
                else NocPacketType.cacheMemReq
      let (pkt2, evts) := sendNocRequest cfg ty pkt1 1 functional
      (true, pkt2, evts)

/-- The continuation `Dtu::completeNocRequest` hands the packet to. -/
inductive NocCompleteEvt where
  | cacheMemResponse (pkt : Packet)
  | writeComplete (pkt : Packet)
  | readComplete (pkt : Packet)
  deriving Repr, DecidableEq

/-- `Dtu::completeNocRequest`: pop the `NocSenderState`; for CACHE_MEM_REQ,
recover the original request address by taking the NoC-address offset and
subtracting endpoint `numEndpoints - 1`'s REQ_REM_ADDR, then send the
cache-mem response; CACHE_MEM_REQ_FUNC responses need no action; every other
type goes to the memory unit's write/read completion, and a packet that is
neither read nor write panics (`none`).  An empty sender-state stack is the
failed `dynamic_cast` (`none`). -/
def completeNocRequest (cfg : DtuCfg) (st : DtuState) (pkt : Packet) :
    Option (Packet × List NocCompleteEvt) :=
  match pkt.nocSenderStates with
  | [] => none
  | ty :: rest =>
    let pkt1 := { pkt with nocSenderStates := rest }
    if ty = NocPacketType.cacheMemReq then
      let targetAddr := st.epRemAddr (cfg.numEndpoints - 1)
      let reqAddr := sub64 (NocAddr.fromAddr cfg pkt1.addr).offset targetAddr
      let pkt2 := { pkt1 with addr := reqAddr }
      some (pkt2, [.cacheMemResponse pkt2])
    else if ty = NocPacketType.cacheMemReqFunc then
      some (pkt1, [])
    else if pkt1.cmd.isWrite then
      some (pkt1, [.writeComplete pkt1])
    else if pkt1.cmd.isRead then
      some (pkt1, [.readComplete pkt1])
    else
      none

/-- The externally visible effects of `Dtu::forwardRequestToRegFile`: a
scheduled CPU/NoC response, the NoC-request-finished notification, a scheduled
command-execution event (timed mode), or an immediate `executeCommand` run
inside the call (atomic mode). -/
inductive RegAccessEvt where
  | cpuResponse (pkt : Packet) (tick : Nat)
  | nocResponse (pkt : Packet) (tick : Nat)
  | nocRequestFinished (tick : Nat)
  | executeCmdScheduled (tick : Nat)
  | executedCommand (r : ExecResult)

/-- `Dtu::forwardRequestToRegFile`: strip `regFileBaseAddr` from the packet
address, let the register file handle the request (`handle` abstracts
`RegFile::handleRequest`, whose code is outside the excerpt; it returns the
updated state and the command-written flag), restore the old address, then
recompute the suspend pin.  In timed mode the response is scheduled at
`clockEdge(ticksToCycles(headerDelay + payloadDelay) + registerAccessLatency)`
with the delays consumed, and a command write schedules `executeCommandEvent`
at that same tick; in atomic mode a command write executes the command before
the call returns. -/
def forwardRequestToRegFile (cfg : DtuCfg)
    (handle : Packet → DtuState → DtuState × Bool)
    (st : DtuState) (pkt : Packet) (isCpuRequest : Bool) :
    DtuState × Packet × List RegAccessEvt :=
  let oldAddr := pkt.addr
  let pktStripped := { pkt with addr := sub64 oldAddr cfg.regFileBaseAddr }
  let hres := handle pktStripped st
  let st1 := hres.1
  let commandWritten := hres.2
  let pkt1 := { pktStripped with addr := oldAddr }
  let st2 := updateSuspendablePin cfg st1
  if cfg.atomicMode then
    if commandWritten then
      let r := executeCommand cfg st2
      let st3 := match r with
        | .ok s _ => s
        | _ => st2
      (st3, pkt1, [.executedCommand r])
    else
      (st2, pkt1, [])
  else
    let transportDelay := cfg.ticksToCycles (pkt1.headerDelay + pkt1.payloadDelay)
    let when := cfg.clockEdge (transportDelay + cfg.registerAccessLatency)
    let pkt2 := { pkt1 with headerDelay := 0, payloadDelay := 0 }
    let respEvts :=
      if isCpuRequest then
        [RegAccessEvt.cpuResponse pkt2 when]
      else
        [RegAccessEvt.nocRequestFinished (cfg.clockEdge 1),
         RegAccessEvt.nocResponse pkt2 when]
    let evts := respEvts ++
      (if commandWritten then [RegAccessEvt.executeCmdScheduled when] else [])
    (st2, pkt2, evts)

/-! Concrete instances used to evaluate the theorems below on explicit
inputs.  `cfgEx`/`stEx` mirror the spec's scenario (`remoteSize = 0x1000`,
`flags = READ | WRITE`) with the reserved memory endpoint being the last
endpoint; `cfgAt` is the same DTU in atomic mode; `cfgC`/`stC` configure the
reserved endpoint as endpoint 0 of 2 with distinct remote bases per
endpoint. -/

def cfgEx : DtuCfg :=
  { numEndpoints := 8, memEp := 7, atomicMode := false, masterId := 5
    regFileBaseAddr := 0x100000, registerAccessLatency := 3
    numCmdOpcodeBits := 3, numCmdEpidBits := 8
    nocOffsetBits := 32, nocEpIdBits := 8, hasCore := true
    clockEdge := fun c => 1000 + 10 * c, ticksToCycles := fun t => t / 10 }

def cfgAt : DtuCfg := { cfgEx with atomicMode := true }

def cfgC : DtuCfg := { cfgEx with numEndpoints := 2, memEp := 0 }

def stEx : DtuState :=
  { command := 0, msgCnt := 2, cmdInProgress := false, denySuspend := false
    epTgtCoreId := fun _ => 4, epRemAddr := fun _ => 0x10000
    epRemSize := fun _ => 0x1000, epFlags := fun _ => 3 }

def stBusy : DtuState := { stEx with command := 42, cmdInProgress := true }

def stCmd : DtuState := { stEx with command := (5 <<< 3) ||| 3 }

def stC : DtuState := { stEx with epRemAddr := fun e => if e = 0 then 0x1000 else 0x2000 }

def pktRd : Packet :=
  { cmd := MemCmd.readReq, addr := 0xFF8, size := 0x10, masterId := 9
    headerDelay := 20, payloadDelay := 30, memSenderStates := [], nocSenderStates := [] }

def pkt500 : Packet := { pktRd with addr := 0x500, headerDelay := 0, payloadDelay := 0 }

def pktSz0 : Packet := { pktRd with size := 0 }

/-- A register-file `handleRequest` stand-in that reports the command
register as written and leaves the state unchanged. -/
def handleW : Packet → DtuState → DtuState × Bool := fun _ s => (s, true)

/-! General lemmas about the 64-bit helpers and bit-field extraction. -/

theorem wordMod_eq : wordMod = 18446744073709551616 := rfl

theorem sub64_of_le (a b : Nat) (hb : b ≤ a) (ha : a < wordMod) : sub64 a b = a - b := by
  unfold sub64
  rw [wordMod_eq] at *
  omega

theorem and_shiftLeft_shiftRight (x m k : Nat) :
    (x &&& (m <<< k)) >>> k = (x >>> k) &&& m := by
  apply Nat.eq_of_testBit_eq
  intro j
  simp only [Nat.testBit_shiftRight, Nat.testBit_and, Nat.testBit_shiftLeft]
  have h1 : k ≤ k + j := Nat.le_add_right k j
  simp [ge_iff_le, h1, Nat.add_sub_cancel_left]

theorem shiftLeft_or_eq_add (e o n : Nat) (h : o < 2 ^ n) :
    (e <<< n) ||| o = e * 2 ^ n + o := by
  apply Nat.eq_of_testBit_eq
  intro j
  rw [Nat.testBit_or, Nat.testBit_shiftLeft]
  rcases Nat.lt_or_ge j n with hj | hj
  · have hd : ¬(j ≥ n) := Nat.not_le_of_lt hj
    have hmod : (e * 2 ^ n + o) % 2 ^ n = o := by
      rw [Nat.mul_comm e, Nat.mul_add_mod, Nat.mod_eq_of_lt h]
    have hbit : (e * 2 ^ n + o).testBit j = o.testBit j := by
      have h2 := Nat.testBit_mod_two_pow (e * 2 ^ n + o) n j
      rw [hmod] at h2
      simp [hj] at h2
      exact h2.symm
    rw [hbit]
    simp [hd]
  · have ho : o.testBit j = false :=
      Nat.testBit_lt_two_pow (lt_of_lt_of_le h (Nat.pow_le_pow_right (by omega) hj))
    rw [ho]
    have hstep : (e * 2 ^ n + o) / 2 ^ n = e := by
      rw [Nat.mul_comm e, Nat.mul_add_div (Nat.two_pow_pos n), Nat.div_eq_of_lt h,
          Nat.add_zero]
    have hdiv : (e * 2 ^ n + o) / 2 ^ j = e / 2 ^ (j - n) := by
      calc (e * 2 ^ n + o) / 2 ^ j
          = (e * 2 ^ n + o) / (2 ^ n * 2 ^ (j - n)) := by
            rw [← Nat.pow_add, Nat.add_sub_cancel' hj]
        _ = (e * 2 ^ n + o) / 2 ^ n / 2 ^ (j - n) := by
            rw [Nat.div_div_eq_div_mul]
        _ = e / 2 ^ (j - n) := by rw [hstep]
    rw [Nat.testBit_to_div_mod, Nat.testBit_to_div_mod, hdiv]
    simp [hj, ge_iff_le]

/-! Lemmas about the command state machine shared by several theorems. -/

theorem finishCommand_clears (cfg : DtuCfg) (st st2 : DtuState)
    (h : finishCommand cfg st = some st2) :
    st2.command = 0 ∧ st2.cmdInProgress = false := by
  unfold finishCommand at h
  cases hg : getCommand cfg st with
  | none => rw [hg] at h; cases h
  | some c =>
    rw [hg] at h
    by_cases hp : st.cmdInProgress = true
    · rw [if_pos hp] at h
      cases h
      exact ⟨rfl, rfl⟩
    · rw [if_neg hp] at h
      cases h

theorem getCommand_isSome (cfg : DtuCfg) (st : DtuState)
    (hw : cfg.numCmdEpidBits + cfg.numCmdOpcodeBits ≤ 64) :
    getCommand cfg st = some
      { opcode := st.command &&& (2 ^ cfg.numCmdOpcodeBits - 1)
        epId := (st.command &&& ((2 ^ cfg.numCmdEpidBits - 1) <<<
          cfg.numCmdOpcodeBits)) >>> cfg.numCmdOpcodeBits } := by
  simp only [getCommand]
  rw [if_pos hw]

theorem finishCommand_preserves_pin (cfg : DtuCfg) (st st2 : DtuState)
    (h : finishCommand cfg st = some st2) :
    st2.denySuspend = st.denySuspend ∧ st2.msgCnt = st.msgCnt := by
  unfold finishCommand at h
  cases hg : getCommand cfg st with
  | none => rw [hg] at h; cases h
  | some c =>
    rw [hg] at h
    by_cases hp : st.cmdInProgress = true
    · rw [if_pos hp] at h
      cases h
      exact ⟨rfl, rfl⟩
    · rw [if_neg hp] at h
      cases h

theorem executeCommand_preserves_pin (cfg : DtuCfg) (st st1 : DtuState)
    (acts : List DtuAction) (h : executeCommand cfg st = ExecResult.ok st1 acts) :
    st1.denySuspend = st.denySuspend ∧ st1.msgCnt = st.msgCnt := by
  cases hg : getCommand cfg st with
  | none =>
    simp only [executeCommand, hg] at h
    exact ExecResult.noConfusion h
  | some cmd =>
    simp only [executeCommand, hg] at h
    repeat' split at h
    all_goals first
      | exact ExecResult.noConfusion h
      | (cases h; exact ⟨rfl, rfl⟩)
      | (cases h; rename_i heq;
         exact finishCommand_preserves_pin cfg { st with cmdInProgress := true } _ heq)

theorem sendNocRequest_fst (cfg : DtuCfg) (ty : NocPacketType) (pkt : Packet)
    (delay : Nat) (functional : Bool) :
    (sendNocRequest cfg ty pkt delay functional).1 =
      { pkt with nocSenderStates := ty :: pkt.nocSenderStates } := by
  cases functional <;> cases hA : cfg.atomicMode <;> simp [sendNocRequest, hA]

theorem fromAddr_getAddr_offset (cfg : DtuCfg) (c ep off : Nat)
    (hob : cfg.nocOffsetBits ≤ 64) (hoff : off < 2 ^ cfg.nocOffsetBits) :
    (NocAddr.fromAddr cfg (NocAddr.getAddr cfg
      { coreId := c, epId := ep, offset := off })).offset = off := by
  simp only [NocAddr.fromAddr, NocAddr.getAddr, wordMod]
  rw [Nat.mod_mod_of_dvd _ (pow_dvd_pow 2 hob), Nat.mul_comm, Nat.mul_add_mod,
      Nat.mod_eq_of_lt hoff]

/-- Claim C1: for every cache-memory request other than CleanEvict and
InvalidateReq, `handleCacheMemRequest` returns false and issues no NoC
request whenever the packet is a write and the memory endpoint lacks the
WRITE flag, or a read and the endpoint lacks the READ flag, or
`addr + size` wraps around 2^64, or `addr + size` exceeds the endpoint's
`remoteSize`. -/
theorem handleCacheMemRequest_denies (cfg : DtuCfg) (st : DtuState) (pkt : Packet)
    (functional : Bool)
    (h1 : pkt.cmd ≠ MemCmd.cleanEvict) (h2 : pkt.cmd ≠ MemCmd.invalidateReq)
    (haddr : pkt.addr < wordMod) (hsize : pkt.size < wordMod)
    (hdeny :
      (pkt.cmd.isWrite = true ∧ st.epFlags cfg.memEp &&& WRITE = 0) ∨
      (pkt.cmd.isRead = true ∧ st.epFlags cfg.memEp &&& READ = 0) ∨
      wordMod ≤ pkt.addr + pkt.size ∨
      st.epRemSize cfg.memEp < pkt.addr + pkt.size) :
    handleCacheMemRequest cfg st pkt functional = (false, pkt, []) := by
  simp only [handleCacheMemRequest]
  rw [if_neg h1, if_neg h2]
  rcases hdeny with ⟨hw, hf⟩ | ⟨hr, hf⟩ | hov | hbound
  · rw [if_pos (by simp [hw, hf])]
  · rw [if_pos (by simp [hr, hf])]
  all_goals {
    cases hp : ((pkt.cmd.isWrite && (st.epFlags cfg.memEp &&& WRITE == 0)) ||
        (pkt.cmd.isRead && (st.epFlags cfg.memEp &&& READ == 0))) with
    | true => rw [if_pos rfl]
    | false =>
      rw [if_neg (by simp)]
      rw [if_pos]
      simp only [add64, wordMod_eq] at *
      omega
  }

/-- Witness for C1: the spec scenario `addr = 0xFF8, size = 0x10` against
`remoteSize = 0x1000` is denied with no NoC traffic. -/
theorem handleCacheMemRequest_denies_witness :
    handleCacheMemRequest cfgEx stEx pktRd false = (false, pktRd, []) :=
  handleCacheMemRequest_denies cfgEx stEx pktRd false (by decide) (by decide)
    (by decide) (by decide) (Or.inr (Or.inr (Or.inr (by decide))))

/-- Claim C2, amended: for a forwarded cache-memory request completing as a
CACHE_MEM_REQ response, `completeNocRequest` restores the original request
address — provided the reserved memory endpoint is the last endpoint
(`memEp = numEndpoints - 1`), because the completion path reads the remote
base from endpoint `numEndpoints - 1` while the request path added `memEp`'s
base (and provided the NoC offset field can hold base + address). -/
theorem completeNocRequest_restores_addr (cfg : DtuCfg) (st : DtuState) (pkt : Packet)
    (hmem : cfg.memEp = cfg.numEndpoints - 1)
    (h1 : pkt.cmd ≠ MemCmd.cleanEvict) (h2 : pkt.cmd ≠ MemCmd.invalidateReq)
    (hperm : ((pkt.cmd.isWrite && (st.epFlags cfg.memEp &&& WRITE == 0)) ||
              (pkt.cmd.isRead && (st.epFlags cfg.memEp &&& READ == 0))) = false)
    (hbound : ¬(add64 pkt.addr pkt.size ≤ pkt.addr ∨
                st.epRemSize cfg.memEp < add64 pkt.addr pkt.size))
    (hob : cfg.nocOffsetBits ≤ 64)
    (hfit : st.epRemAddr cfg.memEp + pkt.addr < 2 ^ cfg.nocOffsetBits) :
    (handleCacheMemRequest cfg st pkt false).1 = true ∧
    Option.map (fun x => x.1.addr)
      (completeNocRequest cfg st (handleCacheMemRequest cfg st pkt false).2.1) =
      some pkt.addr := by
  have hlt64 : st.epRemAddr cfg.memEp + pkt.addr < wordMod := by
    have h2p : (2 : Nat) ^ cfg.nocOffsetBits ≤ 2 ^ 64 := Nat.pow_le_pow_right (by omega) hob
    unfold wordMod
    omega
  have hoffeq : add64 (st.epRemAddr cfg.memEp) pkt.addr =
      st.epRemAddr cfg.memEp + pkt.addr := by
    unfold add64
    exact Nat.mod_eq_of_lt hlt64
  have hhandle : handleCacheMemRequest cfg st pkt false =
      (true,
       { pkt with
          addr := NocAddr.getAddr cfg
            { coreId := st.epTgtCoreId cfg.memEp, epId := 0
              offset := add64 (st.epRemAddr cfg.memEp) pkt.addr }
          nocSenderStates := NocPacketType.cacheMemReq :: pkt.nocSenderStates },
       (sendNocRequest cfg NocPacketType.cacheMemReq
         { pkt with
            addr := NocAddr.getAddr cfg
              { coreId := st.epTgtCoreId cfg.memEp, epId := 0
                offset := add64 (st.epRemAddr cfg.memEp) pkt.addr } }
         1 false).2) := by
    simp only [handleCacheMemRequest]
    rw [if_neg h1, if_neg h2, if_neg (by simp [hperm]), if_neg hbound]
    rw [if_neg (by simp)]
    rw [sendNocRequest_fst]
  rw [hhandle]
  refine ⟨rfl, ?_⟩
  simp only [completeNocRequest, if_true, Option.map]
  rw [← hmem, hoffeq, fromAddr_getAddr_offset cfg _ _ _ hob hfit,
      sub64_of_le _ _ (Nat.le_add_right _ _) hlt64, Nat.add_sub_cancel_left]

/-- Witness for C2 (amended): the spec scenario — `remoteSize = 0x1000`,
flags = READ | WRITE, request `addr = 0x500, size = 0x10` — is forwarded and
the response address equals 0x500 again. -/
theorem completeNocRequest_restores_addr_witness :
    (handleCacheMemRequest cfgEx stEx pkt500 false).1 = true ∧
    Option.map (fun x => x.1.addr)
      (completeNocRequest cfgEx stEx (handleCacheMemRequest cfgEx stEx pkt500 false).2.1) =
      some pkt500.addr :=
  completeNocRequest_restores_addr cfgEx stEx pkt500 (by decide) (by decide) (by decide)
    (by decide) (by decide) (by decide) (by decide)

/-- Counterexample to C2 as stated: with the reserved memory endpoint being
endpoint 0 of 2 (`memEp = 0 ≠ numEndpoints - 1`) and distinct remote bases
per endpoint (0x1000 for endpoint 0, 0x2000 for endpoint 1), a request for
address 0x500 is forwarded, but the response address is
0xFFFFFFFFFFFFF500 — the completion subtracted endpoint 1's base — and not
the original 0x500. -/
theorem completeNocRequest_memEp_mismatch :
    cfgC.memEp ≠ cfgC.numEndpoints - 1 ∧
    (handleCacheMemRequest cfgC stC pkt500 false).1 = true ∧
    pkt500.addr = 0x500 ∧
    Option.map (fun x => x.1.addr)
      (completeNocRequest cfgC stC (handleCacheMemRequest cfgC stC pkt500 false).2.1) =
      some 0xFFFFFFFFFFFFF500 ∧
    Option.map (fun x => x.1.addr)
      (completeNocRequest cfgC stC (handleCacheMemRequest cfgC stC pkt500 false).2.1) ≠
      some pkt500.addr :=
  ⟨by decide, by decide, rfl, by decide, by decide⟩

/-- Claim C3: `getCommand` decodes the low `numCmdOpcodeBits` bits of the
command register as the opcode and the next `numCmdEpidBits` bits, shifted
down, as the epId: for any `o < 2^numCmdOpcodeBits` and
`e < 2^numCmdEpidBits`, the register value `(e <<< numCmdOpcodeBits) ||| o`
decodes to exactly `{opcode := o, epId := e}`. -/
theorem getCommand_decode (cfg : DtuCfg) (st : DtuState) (o e : Nat)
    (hw : cfg.numCmdEpidBits + cfg.numCmdOpcodeBits ≤ 64)
    (ho : o < 2 ^ cfg.numCmdOpcodeBits)
    (he : e < 2 ^ cfg.numCmdEpidBits)
    (hreg : st.command = (e <<< cfg.numCmdOpcodeBits) ||| o) :
    getCommand cfg st = some { opcode := o, epId := e } := by
  have hx : st.command = e * 2 ^ cfg.numCmdOpcodeBits + o := by
    rw [hreg, shiftLeft_or_eq_add _ _ _ ho]
  have hop : st.command &&& (2 ^ cfg.numCmdOpcodeBits - 1) = o := by
    rw [Nat.and_pow_two_sub_one_eq_mod, hx, Nat.mul_comm e, Nat.mul_add_mod,
        Nat.mod_eq_of_lt ho]
  have hdiv : st.command / 2 ^ cfg.numCmdOpcodeBits = e := by
    rw [hx, Nat.mul_comm, Nat.mul_add_div (Nat.two_pow_pos _), Nat.div_eq_of_lt ho,
        Nat.add_zero]
  have hep : (st.command &&& ((2 ^ cfg.numCmdEpidBits - 1) <<< cfg.numCmdOpcodeBits)) >>>
      cfg.numCmdOpcodeBits = e := by
    rw [and_shiftLeft_shiftRight, Nat.shiftRight_eq_div_pow, hdiv,
        Nat.and_pow_two_sub_one_eq_mod, Nat.mod_eq_of_lt he]
  simp only [getCommand]
  rw [if_pos hw]
  simp [hop, hep]

/-- Witness for C3: with 3 opcode bits and 8 epId bits, the register value
`(5 <<< 3) ||| 3` decodes to opcode 3 (READ) and epId 5. -/
theorem getCommand_decode_witness :
    getCommand cfgEx stCmd = some { opcode := 3, epId := 5 } :=
  getCommand_decode cfgEx stCmd 3 5 (by decide) (by decide) (by decide) rfl

/-- Claim C4: the command register reads back zero only after retirement:
`finishCommand` succeeds exactly when a command is in progress and then
clears the COMMAND register and the in-progress flag together; within
`executeCommand`, the asynchronous opcodes SEND/REPLY/READ/WRITE leave the
command register unchanged (the register is cleared only later, by
`finishCommand`), while the synchronous opcodes INC_READ_PTR and WAKEUP_CORE
retire — register cleared, flag dropped — before `executeCommand` returns. -/
theorem finishCommand_sole_retire (cfg : DtuCfg) (st : DtuState)
    (hw : cfg.numCmdEpidBits + cfg.numCmdOpcodeBits ≤ 64) :
    (finishCommand cfg st = none ↔ st.cmdInProgress = false) ∧
    (st.cmdInProgress = true →
      finishCommand cfg st = some { st with command := 0, cmdInProgress := false }) ∧
    (∀ cmd st1 acts, getCommand cfg st = some cmd →
      (cmd.opcode = opSEND ∨ cmd.opcode = opREPLY ∨ cmd.opcode = opREAD ∨
        cmd.opcode = opWRITE) →
      executeCommand cfg st = ExecResult.ok st1 acts →
      st1.command = st.command ∧ st1.cmdInProgress = true) ∧
    (∀ cmd st1 acts, getCommand cfg st = some cmd →
      (cmd.opcode = opINC_READ_PTR ∨ cmd.opcode = opWAKEUP_CORE) →
      executeCommand cfg st = ExecResult.ok st1 acts →
      st1.command = 0 ∧ st1.cmdInProgress = false) := by
  refine ⟨?_, ?_, ?_, ?_⟩
  · unfold finishCommand
    rw [getCommand_isSome cfg st hw]
    by_cases hp : st.cmdInProgress = true
    · rw [if_pos hp]
      simp [hp]
    · rw [if_neg hp]
      simp
      simpa using hp
  · intro hp
    unfold finishCommand
    rw [getCommand_isSome cfg st hw, if_pos hp]
  · intro cmd st1 acts hcmd hop hex
    simp only [executeCommand, hcmd, opIDLE, opSEND, opREPLY, opREAD, opWRITE,
      opINC_READ_PTR, opWAKEUP_CORE] at hex
    simp only [opSEND, opREPLY, opREAD, opWRITE] at hop
    repeat' split at hex
    all_goals first
      | exact ExecResult.noConfusion hex
      | omega
      | (cases hex; exact ⟨rfl, rfl⟩)
  · intro cmd st1 acts hcmd hop hex
    simp only [executeCommand, hcmd, opIDLE, opSEND, opREPLY, opREAD, opWRITE,
      opINC_READ_PTR, opWAKEUP_CORE] at hex
    simp only [opINC_READ_PTR, opWAKEUP_CORE] at hop
    repeat' split at hex
    all_goals first
      | exact ExecResult.noConfusion hex
      | omega
      | (cases hex; rename_i heq;
         exact finishCommand_clears cfg { st with cmdInProgress := true } _ heq)

/-- Witness for C4: with a command in progress, `finishCommand` clears the
command register and the in-progress flag together. -/
theorem finishCommand_sole_retire_witness :
    finishCommand cfgEx stBusy = some { stBusy with command := 0, cmdInProgress := false } :=
  (finishCommand_sole_retire cfgEx stBusy (by decide)).2.1 rfl

/-- Claim C5: after every register-file access (CPU- or NoC-originated),
the deny-suspend signal is recomputed and is true iff the MSG_CNT register
is nonzero at the time of the check. -/
theorem regAccess_suspend_pin (cfg : DtuCfg)
    (handle : Packet → DtuState → DtuState × Bool) (st : DtuState) (pkt : Packet)
    (isCpuRequest : Bool) (hcore : cfg.hasCore = true) :
    ((forwardRequestToRegFile cfg handle st pkt isCpuRequest).1.denySuspend = true ↔
      0 < (forwardRequestToRegFile cfg handle st pkt isCpuRequest).1.msgCnt) := by
  have hpin : ∀ s : DtuState, (updateSuspendablePin cfg s).denySuspend = true ↔
      0 < (updateSuspendablePin cfg s).msgCnt := by
    intro s
    simp [updateSuspendablePin, hcore]
  cases hA : cfg.atomicMode with
  | false =>
    simp only [forwardRequestToRegFile, hA]
    simpa using hpin _
  | true =>
    cases hcw : (handle { pkt with addr := sub64 pkt.addr cfg.regFileBaseAddr } st).2 with
    | false =>
      simp only [forwardRequestToRegFile, hA, hcw]
      simpa using hpin _
    | true =>
      simp only [forwardRequestToRegFile, hA, hcw, if_true]
      cases he : executeCommand cfg (updateSuspendablePin cfg
          (handle { pkt with addr := sub64 pkt.addr cfg.regFileBaseAddr } st).1) with
      | ok s acts =>
        simp only [he]
        have hp := executeCommand_preserves_pin _ _ _ _ he
        rw [hp.1, hp.2]
        simpa using hpin _
      | assertFail => simp only [he]; simpa using hpin _
      | panicked => simp only [he]; simpa using hpin _

/-- Witness for C5: a CPU register access against a state with two pending
messages leaves the deny-suspend pin true iff the counter is nonzero. -/
theorem regAccess_suspend_pin_witness :
    ((forwardRequestToRegFile cfgEx handleW stEx pktRd true).1.denySuspend = true ↔
      0 < (forwardRequestToRegFile cfgEx handleW stEx pktRd true).1.msgCnt) :=
  regAccess_suspend_pin cfgEx handleW stEx pktRd true rfl

/-- Claim C6: in atomic mode every request is resolved synchronously within
the issuing call: `sendMemRequest` performs the atomic send and the
completion before returning, `sendNocRequest` likewise (functional requests
complete immediately regardless of mode), and a register write that sets the
command register executes that command inside `forwardRequestToRegFile`. -/
theorem atomicMode_synchronous (cfg : DtuCfg) (ha : cfg.atomicMode = true) :
    (∀ pkt epId ty delay,
      (sendMemRequest cfg pkt epId ty delay).2 =
        [MemSendEvt.atomicSent (sendMemRequest cfg pkt epId ty delay).1,
         MemSendEvt.completedNow (sendMemRequest cfg pkt epId ty delay).1]) ∧
    (∀ nty pkt delay,
      (sendNocRequest cfg nty pkt delay false).2 =
        [NocSendEvt.atomicSent (sendNocRequest cfg nty pkt delay false).1,
         NocSendEvt.completedNow (sendNocRequest cfg nty pkt delay false).1]) ∧
    (∀ nty pkt delay,
      (sendNocRequest cfg nty pkt delay true).2 =
        [NocSendEvt.functionalSent (sendNocRequest cfg nty pkt delay true).1,
         NocSendEvt.completedNow (sendNocRequest cfg nty pkt delay true).1]) ∧
    (∀ handle st pkt isCpuRequest,
      (handle { pkt with addr := sub64 pkt.addr cfg.regFileBaseAddr } st).2 = true →
      (forwardRequestToRegFile cfg handle st pkt isCpuRequest).2.2 =
        [RegAccessEvt.executedCommand (executeCommand cfg (updateSuspendablePin cfg
          (handle { pkt with addr := sub64 pkt.addr cfg.regFileBaseAddr } st).1))]) := by
  refine ⟨?_, ?_, ?_, ?_⟩
  · intro pkt epId ty delay
    simp [sendMemRequest, ha]
  · intro nty pkt delay
    simp [sendNocRequest, ha]
  · intro nty pkt delay
    simp [sendNocRequest]
  · intro handle st pkt b hcw
    simp [forwardRequestToRegFile, ha, hcw]

/-- Witness for C6: in atomic mode a memory request is sent atomically and
completed within `sendMemRequest`. -/
theorem atomicMode_synchronous_witness :
    (sendMemRequest cfgAt pktRd 0 MemReqType.transfer 1).2 =
      [MemSendEvt.atomicSent (sendMemRequest cfgAt pktRd 0 MemReqType.transfer 1).1,
       MemSendEvt.completedNow (sendMemRequest cfgAt pktRd 0 MemReqType.transfer 1).1] :=
  (atomicMode_synchronous cfgAt rfl).1 pktRd 0 MemReqType.transfer 1

/-- Claim C7: in timed mode a register-file access schedules its response at
`clockEdge(ticksToCycles(headerDelay + payloadDelay) + registerAccessLatency)`,
and when the access wrote the command register the command-execution event is
scheduled at exactly that same tick (so never earlier than the response). -/
theorem timedMode_regAccess (cfg : DtuCfg)
    (handle : Packet → DtuState → DtuState × Bool) (st : DtuState) (pkt : Packet)
    (isCpuRequest : Bool) (ht : cfg.atomicMode = false) :
    (isCpuRequest = true →
      RegAccessEvt.cpuResponse { pkt with headerDelay := 0, payloadDelay := 0 }
          (cfg.clockEdge (cfg.ticksToCycles (pkt.headerDelay + pkt.payloadDelay) +
            cfg.registerAccessLatency)) ∈
        (forwardRequestToRegFile cfg handle st pkt isCpuRequest).2.2) ∧
    (isCpuRequest = false →
      RegAccessEvt.nocResponse { pkt with headerDelay := 0, payloadDelay := 0 }
          (cfg.clockEdge (cfg.ticksToCycles (pkt.headerDelay + pkt.payloadDelay) +
            cfg.registerAccessLatency)) ∈
        (forwardRequestToRegFile cfg handle st pkt isCpuRequest).2.2) ∧
    ((handle { pkt with addr := sub64 pkt.addr cfg.regFileBaseAddr } st).2 = true →
      RegAccessEvt.executeCmdScheduled
          (cfg.clockEdge (cfg.ticksToCycles (pkt.headerDelay + pkt.payloadDelay) +
            cfg.registerAccessLatency)) ∈
        (forwardRequestToRegFile cfg handle st pkt isCpuRequest).2.2) ∧
    (∀ t, RegAccessEvt.executeCmdScheduled t ∈
        (forwardRequestToRegFile cfg handle st pkt isCpuRequest).2.2 →
      t = cfg.clockEdge (cfg.ticksToCycles (pkt.headerDelay + pkt.payloadDelay) +
        cfg.registerAccessLatency)) := by
  refine ⟨?_, ?_, ?_, ?_⟩
  · intro hb
    cases hcw : (handle { pkt with addr := sub64 pkt.addr cfg.regFileBaseAddr } st).2 <;>
      simp [forwardRequestToRegFile, ht, hb, hcw]
  · intro hb
    cases hcw : (handle { pkt with addr := sub64 pkt.addr cfg.regFileBaseAddr } st).2 <;>
      simp [forwardRequestToRegFile, ht, hb, hcw]
  · intro hcw
    cases hb : isCpuRequest <;>
      simp [forwardRequestToRegFile, ht, hb, hcw]
  · intro t hmem
    cases hb : isCpuRequest <;>
      cases hcw : (handle { pkt with addr := sub64 pkt.addr cfg.regFileBaseAddr } st).2 <;>
        simp [forwardRequestToRegFile, ht, hb, hcw] at hmem <;>
          omega

/-- Witness for C7: a timed CPU access that writes the command register
schedules the execution event at the computed response tick. -/
theorem timedMode_regAccess_witness :
    RegAccessEvt.executeCmdScheduled
        (cfgEx.clockEdge (cfgEx.ticksToCycles (pktRd.headerDelay + pktRd.payloadDelay) +
          cfgEx.registerAccessLatency)) ∈
      (forwardRequestToRegFile cfgEx handleW stEx pktRd true).2.2 :=
  (timedMode_regAccess cfgEx handleW stEx pktRd true rfl).2.2.1 rfl

/-- Claim C8: `executeCommand` treats IDLE as a no-op that returns without
marking a command in progress; for every non-IDLE command it asserts that no
command is in progress and that the decoded epId is below `numEndpoints`,
and it panics when the opcode matches no known command value. -/
theorem executeCommand_guards (cfg : DtuCfg) (st : DtuState) (cmd : Command)
    (hcmd : getCommand cfg st = some cmd) :
    (cmd.opcode = opIDLE → executeCommand cfg st = ExecResult.ok st []) ∧
    (cmd.opcode ≠ opIDLE → st.cmdInProgress = true →
      executeCommand cfg st = ExecResult.assertFail) ∧
    (cmd.opcode ≠ opIDLE → st.cmdInProgress = false →
      cfg.numEndpoints ≤ cmd.epId → executeCommand cfg st = ExecResult.assertFail) ∧
    (st.cmdInProgress = false → cmd.epId < cfg.numEndpoints → 7 ≤ cmd.opcode →
      executeCommand cfg st = ExecResult.panicked) := by
  refine ⟨?_, ?_, ?_, ?_⟩
  · intro h
    simp only [executeCommand, hcmd]
    rw [if_pos h]
  · intro h hp
    simp only [executeCommand, hcmd]
    rw [if_neg h, if_pos hp]
  · intro h hp hle
    simp only [executeCommand, hcmd]
    rw [if_neg h, if_neg (by simp [hp]), if_pos hle]
  · intro hp hlt h7
    simp only [executeCommand, hcmd, opIDLE, opSEND, opREPLY, opREAD, opWRITE,
      opINC_READ_PTR, opWAKEUP_CORE]
    rw [if_neg (by omega), if_neg (by simp [hp]), if_neg (Nat.not_le_of_lt hlt),
        if_neg (by omega), if_neg (by omega), if_neg (by omega), if_neg (by omega),
        if_neg (by omega)]

/-- Witness for C8: a zero command register decodes to IDLE and
`executeCommand` returns with the state unchanged. -/
theorem executeCommand_guards_witness :
    executeCommand cfgEx stEx = ExecResult.ok stEx [] :=
  (executeCommand_guards cfgEx stEx { opcode := 0, epId := 0 } (by decide)).1 rfl

/-- Claim C9: every cache-memory request of size zero (other than CleanEvict
and InvalidateReq) is denied regardless of the endpoint's permission flags
and remoteSize, because the overflow guard `addr + size <= addr` holds when
`size = 0`. -/
theorem handleCacheMemRequest_denies_size_zero (cfg : DtuCfg) (st : DtuState)
    (pkt : Packet) (functional : Bool)
    (h1 : pkt.cmd ≠ MemCmd.cleanEvict) (h2 : pkt.cmd ≠ MemCmd.invalidateReq)
    (hsz : pkt.size = 0) (haddr : pkt.addr < wordMod) :
    handleCacheMemRequest cfg st pkt functional = (false, pkt, []) := by
  simp only [handleCacheMemRequest]
  rw [if_neg h1, if_neg h2]
  cases hp : ((pkt.cmd.isWrite && (st.epFlags cfg.memEp &&& WRITE == 0)) ||
      (pkt.cmd.isRead && (st.epFlags cfg.memEp &&& READ == 0))) with
  | true => rw [if_pos rfl]
  | false =>
    rw [if_neg (by simp)]
    rw [if_pos]
    left
    simp only [add64, wordMod_eq] at *
    omega

/-- Witness for C9: a size-zero read against an endpoint with full
permissions and ample remoteSize is still denied. -/
theorem handleCacheMemRequest_size_zero_witness :
    handleCacheMemRequest cfgEx stEx pktSz0 false = (false, pktSz0, []) :=
  handleCacheMemRequest_denies_size_zero cfgEx stEx pktSz0 false (by decide) (by decide)
    rfl (by decide)

/-- Claim C10: `forwardRequestToRegFile` leaves the packet's address
unchanged across the call: the register-file base is subtracted only
temporarily and the original address is restored before any response is
sent. -/
theorem forwardRequestToRegFile_addr_frame (cfg : DtuCfg)
    (handle : Packet → DtuState → DtuState × Bool) (st : DtuState) (pkt : Packet)
    (isCpuRequest : Bool) :
    (forwardRequestToRegFile cfg handle st pkt isCpuRequest).2.1.addr = pkt.addr := by
  cases hA : cfg.atomicMode <;>
    cases hcw : (handle { pkt with addr := sub64 pkt.addr cfg.regFileBaseAddr } st).2 <;>
      simp [forwardRequestToRegFile, hA, hcw]

end Dtu
